import Mathlib

/-!
Shallow embedding of the snake-game simulation from `src/main.rs`
(structs `Game`, `Snake`, `Food`, enum `Direction`, and their methods).

Conventions of the embedding:
* Positions are pairs of integers `(x, y)` modelling the Rust `(i32, i32)`
  tuples (column, row).  No overflow modelling is needed: every claim only
  involves positions a bounded distance away from the tiny grid.
* The `LinkedList<(i32,i32)>` body is a `List Pos`, front (= head of the
  snake) first; `push_front` is `::`, `pop_back` is `List.dropLast`,
  `iter().skip(1)` is `List.tail`.
* `Snake::head` uses `.expect(...)`, which panics on an empty body; the
  panic is modelled by `Option`: `none` is the abort branch.  Every
  function that (transitively) calls `head` is likewise `Option`-valued.
* `rand::thread_rng().gen_range(0, n)` draws a fresh random integer in
  `[0, n)`; the embedding threads the drawn value `r : Int` in as an
  explicit argument of `Game.generate_food` / `Game.update`.
* `Game::update` returns the Rust `bool` (`true` = still running) next to
  the updated state.
-/

abbrev Pos : Type := Int × Int

inductive Direction : Type
  | right
  | left
  | up
  | down
deriving DecidableEq

/-- The keyboard buttons the game reacts to: the four arrow keys, plus a
stand-in for every other button (which falls into the `_` match arm of
`Game::pressed`). -/
inductive Key : Type
  | up
  | down
  | left
  | right
  | other
deriving DecidableEq

structure Snake : Type where
  body : List Pos
  direction : Direction
deriving DecidableEq

structure Food : Type where
  position : Pos
deriving DecidableEq

/-- The simulation state of `struct Game` (the `gl : GlGraphics` render
handle is presentation-only and carries no simulation state). -/
structure Game : Type where
  size : Int × Int
  snake : Snake
  food : Food
  pending_direction : Option Direction
  score : Nat
deriving DecidableEq

/-- Embeds `Snake::new`: fixed two-segment body, heading right. -/
def Snake.new : Snake :=
  { body := [((5 : Int), (5 : Int)), ((4 : Int), (5 : Int))]
    direction := Direction.right }

/-- Embeds `Snake::head`: `self.body.front().expect("The snake has no body")`.
`none` models the panic on an empty body. -/
def Snake.head (s : Snake) : Option Pos :=
  s.body.head?

/-- Embeds `Snake::is_eating`: `self.head() == &food.position` (panics iff the
body is empty, hence `Option Bool`). -/
def Snake.is_eating (s : Snake) (food : Food) : Option Bool :=
  (Snake.head s).map (fun h => h = food.position)

/-- Embeds `Snake::is_eating_itself`: the head equals some later body segment
(`self.body.iter().skip(1).any(...)`). -/
def Snake.is_eating_itself (s : Snake) : Option Bool :=
  (Snake.head s).map (fun h => s.body.tail.any (fun ring => h = ring))

/-- Embeds `Snake::is_out_of_bounds`: the head's column or row leaves
`[0,width) × [0,height)`. -/
def Snake.is_out_of_bounds (s : Snake) (bounds : Int × Int) : Option Bool :=
  (Snake.head s).map (fun h =>
    h.1 < 0 || h.1 ≥ bounds.1 || h.2 < 0 || h.2 ≥ bounds.2)

/-- The `match self.direction { ... }` block of `Snake::update`:
`Left` decrements the column, `Right` increments it, `Up` decrements the
row, `Down` increments it. -/
def moveHead (direction : Direction) (h : Pos) : Pos :=
  match direction with
  | Direction.left => (h.1 - 1, h.2)
  | Direction.right => (h.1 + 1, h.2)
  | Direction.up => (h.1, h.2 - 1)
  | Direction.down => (h.1, h.2 + 1)

/-- Embeds `Snake::update`: install the pending direction, move the head one cell,
push it in front, and pop the tail unless the new head is on the food. -/
def Snake.update (s : Snake) (food : Food) (new_direction : Option Direction) :
    Option Snake :=
  let direction := match new_direction with
    | some d => d
    | none => s.direction
  match s.body.head? with
  | none => none
  | some h =>
    let new_head : Pos := moveHead direction h
    let pushed : List Pos := new_head :: s.body
    let body : List Pos := if new_head = food.position then pushed else pushed.dropLast
    some { body := body, direction := direction }

/-- Embeds `Game::generate_food`: `index` is the value drawn by
`gen_range(0, width * height)`; the food lands at
`(index % width, index / width)`.  Nothing else of the state is read or
written: in particular the snake body is never consulted.  (Rust `%`/`/`
truncate toward zero while Lean's `Int` operators are Euclidean; the two
agree on the actual domain, `0 ≤ index` and `0 < width`, which
`gen_range(0, _)` guarantees.) -/
def Game.generate_food (g : Game) (index : Int) : Game :=
  { g with food := { position := (index % g.size.1, index / g.size.1) } }

/-- Embeds `Game::is_loosing`: `is_eating_itself() || is_out_of_bounds(size)`. -/
def Game.is_loosing (g : Game) : Option Bool :=
  match Snake.is_eating_itself g.snake, Snake.is_out_of_bounds g.snake g.size with
  | some a, some b => some (a || b)
  | _, _ => none

/-- Embeds `Game::update`: one tick.  Returns the updated game and the Rust
return value `!self.is_loosing()` (`true` = still running); `none` models
a panic inside `Snake::head`.  `r` is the random value used by
`generate_food` if the snake eats this tick. -/
def Game.update (g : Game) (r : Int) : Option (Game × Bool) :=
  match Snake.update g.snake g.food g.pending_direction with
  | none => none
  | some snake1 =>
    match Snake.is_eating snake1 g.food with
    | none => none
    | some eating =>
      let g1 : Game := { g with snake := snake1 }
      let g2 : Game :=
        if eating then
          { Game.generate_food g1 r with score := g1.score + 1 }
        else g1
      let g3 : Game := { g2 with pending_direction := none }
      match Game.is_loosing g3 with
      | none => none
      | some losing => some (g3, !losing)

/-- Embeds `Game::pressed`: records a pending heading change; a request is
dropped when one is already pending, when it is the reverse of the
current heading, or when it equals the current heading. -/
def Game.pressed (g : Game) (button : Key) : Game :=
  match g.pending_direction with
  | some _ => g
  | none =>
    let previous_direction := g.snake.direction
    let direction := match button with
      | Key.up =>
        if previous_direction ≠ Direction.down then Direction.up
        else previous_direction
      | Key.down =>
        if previous_direction ≠ Direction.up then Direction.down
        else previous_direction
      | Key.left =>
        if previous_direction ≠ Direction.right then Direction.left
        else previous_direction
      | Key.right =>
        if previous_direction ≠ Direction.left then Direction.right
        else previous_direction
      | Key.other => previous_direction
    if previous_direction ≠ direction then
      { g with pending_direction := some direction }
    else g

/-- Embeds `Game::new`: fresh snake, score 0, no pending direction, and one call
to `generate_food` (with drawn random value `r`). -/
def Game.new (size : Int × Int) (r : Int) : Game :=
  Game.generate_food
    { size := size
      snake := Snake.new
      food := { position := ((0 : Int), (0 : Int)) }
      pending_direction := none
      score := 0 } r

/-- The reverse of each direction (`Up`/`Down` and `Left`/`Right` are
opposite pairs); used to state the rejection rule of `Game::pressed`. -/
def Direction.opposite : Direction → Direction
  | Direction.right => Direction.left
  | Direction.left => Direction.right
  | Direction.up => Direction.down
  | Direction.down => Direction.up

/-- The direction a key requests (`none` for every non-arrow key). -/
def keyDir : Key → Option Direction
  | Key.up => some Direction.up
  | Key.down => some Direction.down
  | Key.left => some Direction.left
  | Key.right => some Direction.right
  | Key.other => none

/-- Spec-side acceptance rule (for the refinement claim about debouncing):
a request is accepted iff it is a direction key whose direction is neither
the current heading nor its reverse. -/
def specAccepts (heading : Direction) (k : Key) : Option Direction :=
  match keyDir k with
  | some d =>
    if d = heading ∨ d = Direction.opposite heading then none else some d
  | none => none

/-- Spec-side description of a whole inter-tick burst of requests: the
first accepted one wins, all later ones are dropped. -/
def specFirstAccepted (heading : Direction) : List Key → Option Direction
  | [] => none
  | k :: ks =>
    match specAccepts heading k with
    | some d => some d
    | none => specFirstAccepted heading ks

/-- The inputs the event loop in `main` feeds to the simulation: button
presses and update (tick) events; a tick event carries the random value
drawn in case `generate_food` runs. -/
inductive Event : Type
  | press (k : Key)
  | tick (r : Int)

/-- Whether a tick from state `g` is a food-eating tick: the snake's new
head lands on the food (computed with the game's own
`Snake::update` / `Snake::is_eating`). -/
def tickAte (g : Game) : Bool :=
  match Snake.update g.snake g.food g.pending_direction with
  | none => false
  | some s1 => (Snake.is_eating s1 g.food).getD false

/-- Run a list of events, counting the food-eating ticks; `none` models a
panic inside some tick. -/
def runCount : Game → List Event → Option (Game × Nat)
  | g, [] => some (g, 0)
  | g, Event.press k :: es => runCount (Game.pressed g k) es
  | g, Event.tick r :: es =>
    match Game.update g r with
    | none => none
    | some (g', _) =>
      (runCount g' es).map (fun p => (p.1, (if tickAte g then 1 else 0) + p.2))

/-- The states reachable from a newly constructed game by any sequence of
button presses and ticks (mirroring the event loop in `main`, but without
stopping at a losing tick). -/
inductive Reachable : Game → Prop
  | init (size : Int × Int) (r : Int) : Reachable (Game.new size r)
  | press {g : Game} (k : Key) : Reachable g → Reachable (Game.pressed g k)
  | tick {g g' : Game} (r : Int) (alive : Bool) : Reachable g →
      Game.update g r = some (g', alive) → Reachable g'

/-- The states reachable while still running: as `Reachable`, but every
tick so far returned `true` (the event loop in `main` breaks on the first
`false`). -/
inductive ReachableRunning : Game → Prop
  | init (size : Int × Int) (r : Int) : ReachableRunning (Game.new size r)
  | press {g : Game} (k : Key) : ReachableRunning g →
      ReachableRunning (Game.pressed g k)
  | tick {g g' : Game} (r : Int) : ReachableRunning g →
      Game.update g r = some (g', true) → ReachableRunning g'

/-- The decomposition of a successful tick from a state whose body is
`hd :: t`: helper used to characterise `Game.update` (see
`Game.update_anatomy`). -/
def tickResult (g : Game) (r : Int) (hd : Pos) (t : List Pos) : Game × Bool :=
  let d := g.pending_direction.getD g.snake.direction
  let nh := moveHead d hd
  let eating : Bool := nh = g.food.position
  let newBody : List Pos :=
    if nh = g.food.position then nh :: hd :: t else nh :: (hd :: t).dropLast
  let snake1 : Snake := { body := newBody, direction := d }
  let g2 : Game :=
    if eating then
      { g with snake := snake1
               food := { position := (r % g.size.1, r / g.size.1) }
               score := g.score + 1
               pending_direction := none }
    else { g with snake := snake1, pending_direction := none }
  let losing : Bool :=
    newBody.tail.any (fun ring => nh = ring)
      || (nh.1 < 0 || nh.1 ≥ g.size.1 || nh.2 < 0 || nh.2 ≥ g.size.2)
  (g2, !losing)

theorem Game.update_anatomy (g : Game) (r : Int) (hd : Pos) (t : List Pos)
    (hb : g.snake.body = hd :: t) :
    Game.update g r = some (tickResult g r hd t) := by
  rcases g with ⟨size, ⟨body, dir⟩, food, pending, score⟩
  simp only at hb
  subst hb
  rcases pending with _ | pd
  · by_cases he : moveHead dir hd = food.position <;>
      simp [Game.update, Snake.update, tickResult, Game.is_loosing,
        Snake.is_eating, Snake.is_eating_itself, Snake.is_out_of_bounds,
        Snake.head, Game.generate_food, he]
  · by_cases he : moveHead pd hd = food.position <;>
      simp [Game.update, Snake.update, tickResult, Game.is_loosing,
        Snake.is_eating, Snake.is_eating_itself, Snake.is_out_of_bounds,
        Snake.head, Game.generate_food, he]

theorem Game.update_nil (g : Game) (r : Int) (hb : g.snake.body = []) :
    Game.update g r = none := by
  simp [Game.update, Snake.update, hb]

theorem Game.pressed_of_pending_some (g : Game) (k : Key) (d : Direction)
    (h : g.pending_direction = some d) : Game.pressed g k = g := by
  simp [Game.pressed, h]

theorem Game.pressed_of_pending_none (g : Game) (k : Key)
    (h : g.pending_direction = none) :
    Game.pressed g k =
      match specAccepts g.snake.direction k with
      | some d => { g with pending_direction := some d }
      | none => g := by
  rcases g with ⟨size, ⟨body, dir⟩, food, pending, score⟩
  simp only at h
  subst h
  cases k <;> cases dir <;>
    simp [Game.pressed, specAccepts, keyDir, Direction.opposite]

theorem Game.pressed_snake (g : Game) (k : Key) :
    (Game.pressed g k).snake = g.snake := by
  cases hp : g.pending_direction with
  | none =>
    rw [Game.pressed_of_pending_none g k hp]
    cases specAccepts g.snake.direction k <;> rfl
  | some d => rw [Game.pressed_of_pending_some g k d hp]

theorem foldl_pressed_of_pending_some (g : Game) (ks : List Key) (d : Direction)
    (h : g.pending_direction = some d) : ks.foldl Game.pressed g = g := by
  induction ks with
  | nil => rfl
  | cons k ks ih => rw [List.foldl_cons, Game.pressed_of_pending_some g k d h, ih]

theorem foldl_pressed_of_pending_none (g : Game) (ks : List Key)
    (h : g.pending_direction = none) :
    ks.foldl Game.pressed g =
      { g with pending_direction := specFirstAccepted g.snake.direction ks } := by
  induction ks generalizing g with
  | nil =>
    rcases g with ⟨size, snake, food, pending, score⟩
    simp only at h
    subst h
    rfl
  | cons k ks ih =>
    rw [List.foldl_cons, Game.pressed_of_pending_none g k h]
    cases hacc : specAccepts g.snake.direction k with
    | none =>
      rw [ih g h]
      simp [specFirstAccepted, hacc]
    | some d =>
      rw [foldl_pressed_of_pending_some _ ks d rfl]
      simp [specFirstAccepted, hacc]

theorem Game.update_body_ne_nil (g : Game) (r : Int) (p : Game × Bool)
    (h : Game.update g r = some p) : g.snake.body ≠ [] := by
  intro hb
  rw [Game.update_nil g r hb] at h
  exact Option.noConfusion h

theorem Game.update_isSome (g : Game) (r : Int) (hb : g.snake.body ≠ []) :
    (Game.update g r).isSome := by
  rcases hbody : g.snake.body with _ | ⟨hd, t⟩
  · exact absurd hbody hb
  · rw [Game.update_anatomy g r hd t hbody]
    rfl

theorem Game.update_direction (g : Game) (r : Int) (g' : Game) (alive : Bool)
    (h : Game.update g r = some (g', alive)) :
    g'.snake.direction = g.pending_direction.getD g.snake.direction := by
  rcases hbody : g.snake.body with _ | ⟨hd, t⟩
  · exact absurd hbody (Game.update_body_ne_nil g r _ h)
  · rw [Game.update_anatomy g r hd t hbody, Option.some_inj] at h
    by_cases he :
        moveHead (g.pending_direction.getD g.snake.direction) hd
          = g.food.position <;>
      simp [tickResult, he] at h <;> rcases h with ⟨rfl, -⟩ <;> rfl

theorem tickAte_eq (g : Game) (hd : Pos) (t : List Pos)
    (hb : g.snake.body = hd :: t) :
    tickAte g =
      decide (moveHead (g.pending_direction.getD g.snake.direction) hd
        = g.food.position) := by
  by_cases he :
      moveHead (g.pending_direction.getD g.snake.direction) hd
        = g.food.position <;>
    rcases hp : g.pending_direction with _ | pd <;>
    simp [hp, Option.getD] at he <;>
    simp [tickAte, Snake.update, Snake.is_eating, Snake.head, hb, hp, he]

theorem Game.update_length_score (g : Game) (r : Int) (g' : Game) (alive : Bool)
    (h : Game.update g r = some (g', alive)) :
    g'.snake.body.length
        = g.snake.body.length + (if tickAte g then 1 else 0) ∧
    g'.score = g.score + (if tickAte g then 1 else 0) := by
  rcases hbody : g.snake.body with _ | ⟨hd, t⟩
  · exact absurd hbody (Game.update_body_ne_nil g r _ h)
  · rw [Game.update_anatomy g r hd t hbody, Option.some_inj] at h
    rw [tickAte_eq g hd t hbody]
    by_cases he :
        moveHead (g.pending_direction.getD g.snake.direction) hd
          = g.food.position <;>
      simp [tickResult, he] at h <;> rcases h with ⟨rfl, -⟩ <;>
      simp [he, hbody, List.length_dropLast]

theorem Reachable.two_le_body_length {g : Game} (h : Reachable g) :
    2 ≤ g.snake.body.length := by
  induction h with
  | init size r => simp [Game.new, Game.generate_food, Snake.new]
  | press k hg ih => rw [Game.pressed_snake]; exact ih
  | tick r alive hg hupd ih =>
    rename_i g g'
    obtain ⟨hlen, -⟩ := Game.update_length_score g r g' alive hupd
    omega

theorem ReachableRunning.body_nodup {g : Game} (h : ReachableRunning g) :
    g.snake.body.Nodup := by
  induction h with
  | init size r =>
    simp [Game.new, Game.generate_food, Snake.new]
  | press k hg ih => rw [Game.pressed_snake]; exact ih
  | tick r hg hupd ih =>
    rename_i g g'
    rcases hbody : g.snake.body with _ | ⟨hd, t⟩
    · exact absurd hbody (Game.update_body_ne_nil g r _ hupd)
    · rw [Game.update_anatomy g r hd t hbody, Option.some_inj] at hupd
      rw [hbody] at ih
      by_cases he :
          moveHead (g.pending_direction.getD g.snake.direction) hd
            = g.food.position <;>
        simp [tickResult, he] at hupd <;> rcases hupd with ⟨rfl, hal⟩
      · -- eating tick: the new body is the food cell consed onto `hd :: t`
        rw [List.nodup_cons]
        refine ⟨?_, ih⟩
        intro hmem
        rcases List.mem_cons.mp hmem with h1 | h2
        · exact hal.1.1 h1
        · exact hal.1.2 g.food.position.1 g.food.position.2 (by simpa using h2)
            (by simp)
      · -- non-eating tick: the new body is the moved head consed onto
        -- `(hd :: t).dropLast`
        rw [List.nodup_cons]
        refine ⟨?_, ih.sublist (List.dropLast_sublist (hd :: t))⟩
        intro hmem
        exact hal.1 (moveHead (g.pending_direction.getD g.snake.direction) hd).1
          (moveHead (g.pending_direction.getD g.snake.direction) hd).2
          (by simpa using hmem) (by simp)

theorem tickResult_oob (g : Game) (r : Int) (hd : Pos) (t : List Pos)
    (hoob : Snake.is_out_of_bounds (tickResult g r hd t).1.snake
        (tickResult g r hd t).1.size = some true) :
    (tickResult g r hd t).2 = false := by
  by_cases he : moveHead (g.pending_direction.getD g.snake.direction) hd
      = g.food.position <;>
    simp [tickResult, Snake.is_out_of_bounds, Snake.head, he] at hoob ⊢ <;>
    omega

theorem runCount_length (es : List Event) (g g' : Game) (n : Nat)
    (h : runCount g es = some (g', n)) :
    g'.snake.body.length = g.snake.body.length + n := by
  induction es generalizing g n with
  | nil =>
    simp [runCount] at h
    rcases h with ⟨rfl, rfl⟩
    rfl
  | cons e es ih =>
    cases e with
    | press k =>
      rw [runCount] at h
      have hlen := ih (Game.pressed g k) n h
      rwa [Game.pressed_snake] at hlen
    | tick r =>
      rw [runCount] at h
      cases hu : Game.update g r with
      | none => rw [hu] at h; exact Option.noConfusion h
      | some p =>
        rcases p with ⟨g1, alive⟩
        rw [hu] at h
        dsimp only at h
        cases hrc : runCount g1 es with
        | none => rw [hrc] at h; exact Option.noConfusion h
        | some q =>
          rcases q with ⟨gf, m⟩
          rw [hrc] at h
          simp only [Option.map_some'] at h
          rcases Option.some_inj.mp h with h'
          obtain ⟨rfl, rfl⟩ : gf = g' ∧ (if tickAte g then 1 else 0) + m = n := by
            exact ⟨congrArg Prod.fst h', congrArg Prod.snd h'⟩
          have h1 := (Game.update_length_score g r g1 alive hu).1
          have h2 := ih g1 m hrc
          by_cases ht : tickAte g <;> simp [ht] at h1 ⊢ <;> omega

/-- Claim C1, as stated, is false: from the body
`[(5,5),(4,5),(4,4),(5,4)]` (head first, positions being `(column,row)` as
in the source) with heading `Up`, the head moves to `(5,4)` — the current
tail cell, which is popped in the same tick — so with the food elsewhere
(here `(0,0)`) the tick returns `true` (still running), not a terminal
outcome. -/
theorem self_collision_scenario_as_stated_is_running :
    (Game.update
        { size := ((30 : Int), (20 : Int))
          snake :=
            { body := [((5 : Int), (5 : Int)), (4, 5), (4, 4), (5, 4)]
              direction := Direction.up }
          food := { position := ((0 : Int), (0 : Int)) }
          pending_direction := none
          score := 0 } 0).map (fun p => p.2) = some true := by
  decide

/-- Claim C1 (amended): from the body `[(5,5),(4,5),(4,4),(5,4)]` (head
first) with heading `Left` — so that the head moves onto the existing
segment `(4,5)` — one tick produces a terminal outcome (`false` from
`Game::update`) due to self-collision, for every food position and every
random draw. -/
theorem self_collision_scenario_terminates (food : Food) (r : Int) :
    (Game.update
        { size := ((30 : Int), (20 : Int))
          snake :=
            { body := [((5 : Int), (5 : Int)), (4, 5), (4, 4), (5, 4)]
              direction := Direction.left }
          food := food
          pending_direction := none
          score := 0 } r).map (fun p => p.2) = some false := by
  rw [Game.update_anatomy _ r ((5 : Int), (5 : Int)) [(4, 5), (4, 4), (5, 4)]
    rfl]
  by_cases he : (((4 : Int), (5 : Int)) : Pos) = food.position
  · simp [tickResult, moveHead, ← he]
  · simp [tickResult, moveHead, he]

/-- Claim C2: for every burst of key presses delivered between two ticks
(starting with no pending direction), the recorded pending direction is
exactly the first request that is neither the current heading nor its
reverse (later requests are dropped), and that direction — if any —
is the snake's heading right after the next successful tick. -/
theorem debounce_law (g : Game) (ks : List Key) (r : Int)
    (h : g.pending_direction = none) :
    (ks.foldl Game.pressed g).pending_direction
        = specFirstAccepted g.snake.direction ks ∧
    ∀ (g' : Game) (alive : Bool),
      Game.update (ks.foldl Game.pressed g) r = some (g', alive) →
      g'.snake.direction
        = (specFirstAccepted g.snake.direction ks).getD g.snake.direction := by
  rw [foldl_pressed_of_pending_none g ks h]
  refine ⟨rfl, ?_⟩
  intro g' alive hupd
  have hdir := Game.update_direction _ r g' alive hupd
  simpa using hdir

/-- Witness for the debounce law at a concrete burst: after `Up` then
`Left` from a fresh game (heading `Right`), the pending direction is the
first valid request, `Up`. -/
theorem debounce_law_witness :
    ([Key.up, Key.left].foldl Game.pressed (Game.new (30, 20) 3)).pending_direction
      = specFirstAccepted (Game.new (30, 20) 3).snake.direction
          [Key.up, Key.left] :=
  (debounce_law (Game.new (30, 20) 3) [Key.up, Key.left] 0 rfl).1

/-- Claim C3: a request for the exact opposite of the current heading is
always rejected — the pending direction and the heading are unchanged —
whatever the debounce state (`pending_direction`) is. -/
theorem reverse_rejection_law (g : Game) (k : Key) (d : Direction)
    (hk : keyDir k = some d)
    (hop : d = Direction.opposite g.snake.direction) :
    (Game.pressed g k).pending_direction = g.pending_direction ∧
    (Game.pressed g k).snake.direction = g.snake.direction := by
  have heq : Game.pressed g k = g := by
    cases hp : g.pending_direction with
    | some d' => exact Game.pressed_of_pending_some g k d' hp
    | none =>
      rw [Game.pressed_of_pending_none g k hp]
      have hacc : specAccepts g.snake.direction k = none := by
        cases hdir : g.snake.direction <;> cases k <;>
          simp_all [keyDir, specAccepts, Direction.opposite]
      simp [hacc]
  rw [heq]
  exact ⟨rfl, rfl⟩

/-- Witness for the reverse-rejection law: pressing `Left` while heading
`Right` (with a pending `Up` already recorded) changes nothing. -/
theorem reverse_rejection_law_witness :
    ((Game.pressed (Game.pressed (Game.new (30, 20) 3) Key.up) Key.left).pending_direction
        = (Game.pressed (Game.new (30, 20) 3) Key.up).pending_direction) ∧
    ((Game.pressed (Game.pressed (Game.new (30, 20) 3) Key.up) Key.left).snake.direction
        = (Game.pressed (Game.new (30, 20) 3) Key.up).snake.direction) :=
  reverse_rejection_law (Game.pressed (Game.new (30, 20) 3) Key.up) Key.left
    Direction.left rfl (by decide)

/-- Claim C4: in every state reachable from a fresh game by presses and
ticks the body is non-empty and its length never drops below the initial
2; moreover a single tick either keeps the length (head prepended, tail
popped) or grows it by exactly one (head prepended, no pop). -/
theorem body_length_invariant :
    (∀ g : Game, Reachable g →
      1 ≤ g.snake.body.length ∧ 2 ≤ g.snake.body.length) ∧
    (∀ (g : Game) (r : Int) (g' : Game) (alive : Bool),
      Game.update g r = some (g', alive) →
      g'.snake.body.length = g.snake.body.length ∨
      g'.snake.body.length = g.snake.body.length + 1) := by
  constructor
  · intro g h
    have := Reachable.two_le_body_length h
    omega
  · intro g r g' alive h
    have := (Game.update_length_score g r g' alive h).1
    by_cases ht : tickAte g <;> simp [ht] at this <;> omega

/-- Witness: the freshly constructed game is reachable and already has
body length 2. -/
theorem body_length_invariant_witness :
    1 ≤ (Game.new (30, 20) 0).snake.body.length ∧
    2 ≤ (Game.new (30, 20) 0).snake.body.length :=
  body_length_invariant.1 (Game.new (30, 20) 0) (Reachable.init (30, 20) 0)

/-- Claim C5: running any event sequence from a fresh game (so long as no
tick panics), the final body length is 2 plus the number of food-eating
ticks counted along the run. -/
theorem growth_law (size : Int × Int) (r0 : Int) (es : List Event)
    (g' : Game) (n : Nat)
    (h : runCount (Game.new size r0) es = some (g', n)) :
    g'.snake.body.length = 2 + n := by
  have hlen := runCount_length es (Game.new size r0) g' n h
  simp [Game.new, Game.generate_food, Snake.new] at hlen
  omega

/-- Witness: one non-eating tick from a fresh game leaves the body at
length 2 + 0. -/
theorem growth_law_witness :
    ({ size := ((30 : Int), (20 : Int))
       snake :=
         { body := [((6 : Int), (5 : Int)), (5, 5)]
           direction := Direction.right }
       food := { position := ((5 : Int), (0 : Int)) }
       pending_direction := none
       score := 0 } : Game).snake.body.length = 2 + 0 :=
  growth_law (30, 20) 5 [Event.tick 0] _ 0 (by decide)

/-- Claim C6: in every state reachable while still running (every tick so
far returned `true`), no two body segments coincide. -/
theorem no_overlap_invariant (g : Game) (h : ReachableRunning g) :
    g.snake.body.Nodup :=
  ReachableRunning.body_nodup h

/-- Witness: the fresh game is a running reachable state with all body
segments distinct. -/
theorem no_overlap_invariant_witness :
    (Game.new (30, 20) 7).snake.body.Nodup :=
  no_overlap_invariant (Game.new (30, 20) 7) (ReachableRunning.init (30, 20) 7)

/-- Claim C7: on the 30×20 grid with head `(29,5)` heading `Right`, one
tick moves the head to `(30,5)` and returns `false` (terminated), for
every tail, food position, score and random draw; and in general any
successful tick whose new head is out of bounds returns `false`. -/
theorem boundary_scenario (t : List Pos) (food : Food) (sc : Nat) (r : Int) :
    ((Game.update
        { size := ((30 : Int), (20 : Int))
          snake :=
            { body := ((29 : Int), (5 : Int)) :: t
              direction := Direction.right }
          food := food
          pending_direction := none
          score := sc } r).map (fun p => (p.1.snake.body.head?, p.2))
      = some (some ((30 : Int), (5 : Int)), false)) ∧
    (∀ (g : Game) (r' : Int) (g' : Game) (alive : Bool),
      Game.update g r' = some (g', alive) →
      Snake.is_out_of_bounds g'.snake g'.size = some true →
      alive = false) := by
  constructor
  · rw [Game.update_anatomy _ r ((29 : Int), (5 : Int)) t rfl]
    by_cases he : (((30 : Int), (5 : Int)) : Pos) = food.position
    · simp [tickResult, moveHead, ← he]
    · simp [tickResult, moveHead, he]
  · intro g r' g' alive h hoob
    rcases hbody : g.snake.body with _ | ⟨hd, tl⟩
    · exact absurd hbody (Game.update_body_ne_nil g r' _ h)
    · rw [Game.update_anatomy g r' hd tl hbody, Option.some_inj] at h
      obtain ⟨rfl, rfl⟩ : g' = (tickResult g r' hd tl).1 ∧
          alive = (tickResult g r' hd tl).2 :=
        ⟨(congrArg Prod.fst h).symm, (congrArg Prod.snd h).symm⟩
      exact tickResult_oob g r' hd tl hoob

/-- Witness for the boundary scenario with the concrete tail `[(28,5)]`,
food `(0,0)`, score 0, draw 0. -/
theorem boundary_scenario_witness :
    (Game.update
        { size := ((30 : Int), (20 : Int))
          snake :=
            { body := [((29 : Int), (5 : Int)), (28, 5)]
              direction := Direction.right }
          food := { position := ((0 : Int), (0 : Int)) }
          pending_direction := none
          score := 0 } 0).map (fun p => (p.1.snake.body.head?, p.2))
      = some (some ((30 : Int), (5 : Int)), false) :=
  (boundary_scenario [((28 : Int), (5 : Int))]
    { position := ((0 : Int), (0 : Int)) } 0 0).1

/-- Claim C8: for a positive grid and a drawn index in
`[0, width*height)`, `generate_food` puts the food at
`(index mod width, index div width)`, which lies inside the grid; the
snake is never consulted or changed, and every in-grid body cell is hit
by some draw — food may land on the snake. -/
theorem food_placement (g : Game) (r : Int)
    (hw : 0 < g.size.1) (hh : 0 < g.size.2) (hr0 : 0 ≤ r)
    (hr : r < g.size.1 * g.size.2) :
    (Game.generate_food g r).food.position = (r % g.size.1, r / g.size.1) ∧
    (0 ≤ r % g.size.1 ∧ r % g.size.1 < g.size.1) ∧
    (0 ≤ r / g.size.1 ∧ r / g.size.1 < g.size.2) ∧
    (Game.generate_food g r).snake = g.snake ∧
    (∀ c : Pos, c ∈ g.snake.body → 0 ≤ c.1 → c.1 < g.size.1 →
      0 ≤ c.2 → c.2 < g.size.2 →
      ∃ r', 0 ≤ r' ∧ r' < g.size.1 * g.size.2 ∧
        (Game.generate_food g r').food.position = c ∧
        (Game.generate_food g r').food.position ∈ g.snake.body) := by
  refine ⟨rfl, ⟨Int.emod_nonneg r (ne_of_gt hw), Int.emod_lt_of_pos r hw⟩,
    ⟨Int.ediv_nonneg hr0 (le_of_lt hw),
      (Int.ediv_lt_iff_lt_mul hw).mpr (by linarith [Int.mul_comm g.size.1 g.size.2])⟩,
    rfl, ?_⟩
  intro c hc h1 h2 h3 h4
  refine ⟨c.2 * g.size.1 + c.1, by positivity, ?_, ?_, ?_⟩
  · have hstep : c.2 * g.size.1 + c.1 < (c.2 + 1) * g.size.1 := by nlinarith
    have hle : (c.2 + 1) * g.size.1 ≤ g.size.2 * g.size.1 :=
      mul_le_mul_of_nonneg_right (by omega) (le_of_lt hw)
    calc c.2 * g.size.1 + c.1 < (c.2 + 1) * g.size.1 := hstep
      _ ≤ g.size.2 * g.size.1 := hle
      _ = g.size.1 * g.size.2 := mul_comm _ _
  · show ((c.2 * g.size.1 + c.1) % g.size.1, (c.2 * g.size.1 + c.1) / g.size.1) = c
    have hmod : (c.2 * g.size.1 + c.1) % g.size.1 = c.1 := by
      rw [add_comm, Int.add_mul_emod_self]
      exact Int.emod_eq_of_lt h1 h2
    have hdiv : (c.2 * g.size.1 + c.1) / g.size.1 = c.2 := by
      rw [add_comm, Int.add_mul_ediv_right c.1 c.2 (ne_of_gt hw),
        Int.ediv_eq_zero_of_lt h1 h2, zero_add]
    rw [hmod, hdiv]
  · have hmod : (c.2 * g.size.1 + c.1) % g.size.1 = c.1 := by
      rw [add_comm, Int.add_mul_emod_self]
      exact Int.emod_eq_of_lt h1 h2
    have hdiv : (c.2 * g.size.1 + c.1) / g.size.1 = c.2 := by
      rw [add_comm, Int.add_mul_ediv_right c.1 c.2 (ne_of_gt hw),
        Int.ediv_eq_zero_of_lt h1 h2, zero_add]
    show ((c.2 * g.size.1 + c.1) % g.size.1, (c.2 * g.size.1 + c.1) / g.size.1)
        ∈ g.snake.body
    rw [hmod, hdiv]
    simpa using hc

/-- Witness: drawing index 155 on the 30×20 grid puts the food on
`(5, 5)` — the head cell of the fresh snake. -/
theorem food_placement_witness :
    (Game.generate_food (Game.new (30, 20) 0) 155).food.position
      = ((155 : Int) % 30, (155 : Int) / 30) :=
  (food_placement (Game.new (30, 20) 0) 155 (by decide) (by decide)
    (by decide) (by decide)).1

/-- Claim C9: `Snake::head` hits its abort branch exactly on an empty
body; every operation that calls it succeeds on a non-empty body; and on
every reachable state a whole tick — hence each `head()` call inside it —
succeeds, so the abort is unreachable in the simulation. -/
theorem head_abort_unreachable :
    (∀ s : Snake, Snake.head s = none ↔ s.body = []) ∧
    (∀ (s : Snake) (food : Food) (nd : Option Direction) (bounds : Int × Int),
      s.body ≠ [] →
      (Snake.head s).isSome ∧ (Snake.update s food nd).isSome ∧
      (Snake.is_eating s food).isSome ∧ (Snake.is_eating_itself s).isSome ∧
      (Snake.is_out_of_bounds s bounds).isSome) ∧
    (∀ (g : Game) (r : Int), Reachable g → (Game.update g r).isSome) := by
  refine ⟨?_, ?_, ?_⟩
  · intro s
    simp [Snake.head]
  · intro s food nd bounds hb
    rcases hbody : s.body with _ | ⟨hd, t⟩
    · exact absurd hbody hb
    · cases nd <;>
        simp [Snake.head, Snake.update, Snake.is_eating,
          Snake.is_eating_itself, Snake.is_out_of_bounds, hbody]
  · intro g r hreach
    refine Game.update_isSome g r ?_
    have := Reachable.two_le_body_length hreach
    intro hnil
    rw [hnil] at this
    simp at this

/-- Witness: the fresh game is reachable and its first tick succeeds
(no panic). -/
theorem head_abort_unreachable_witness :
    (Game.update (Game.new (30, 20) 0) 0).isSome :=
  head_abort_unreachable.2.2 (Game.new (30, 20) 0) 0 (Reachable.init (30, 20) 0)

/-- Claim C10: on any successful tick whose moved head lands on the food,
the score is incremented and the food is regenerated from the drawn
index — whether or not the same tick also loses (the eating effects in
`Game::update` run before `is_loosing` is consulted and are not gated by
it). -/
theorem eating_effects_on_terminal_tick (g : Game) (r : Int) (g' : Game)
    (alive : Bool) (h : Game.update g r = some (g', alive))
    (hate : tickAte g = true) :
    g'.score = g.score + 1 ∧
    g'.food.position = (r % g.size.1, r / g.size.1) := by
  rcases hbody : g.snake.body with _ | ⟨hd, t⟩
  · exact absurd hbody (Game.update_body_ne_nil g r _ h)
  · rw [tickAte_eq g hd t hbody] at hate
    rw [Game.update_anatomy g r hd t hbody, Option.some_inj] at h
    simp only [decide_eq_true_eq] at hate
    simp [tickResult, hate] at h
    rcases h with ⟨rfl, -⟩
    exact ⟨rfl, rfl⟩

/-- Witness: a tick that eats the food at `(5,4)` and simultaneously dies
of self-collision (`alive = false`) still increments the score and
regenerates the food. -/
theorem eating_effects_on_terminal_tick_witness :
    ({ size := ((30 : Int), (20 : Int))
       snake :=
         { body := [((5 : Int), (4 : Int)), (5, 5), (4, 5), (4, 4), (5, 4)]
           direction := Direction.up }
       food := { position := ((7 : Int), (0 : Int)) }
       pending_direction := none
       score := 1 } : Game).score
        = ({ size := ((30 : Int), (20 : Int))
             snake :=
               { body := [((5 : Int), (5 : Int)), (4, 5), (4, 4), (5, 4)]
                 direction := Direction.up }
             food := { position := ((5 : Int), (4 : Int)) }
             pending_direction := none
             score := 0 } : Game).score + 1 ∧
    ({ size := ((30 : Int), (20 : Int))
       snake :=
         { body := [((5 : Int), (4 : Int)), (5, 5), (4, 5), (4, 4), (5, 4)]
           direction := Direction.up }
       food := { position := ((7 : Int), (0 : Int)) }
       pending_direction := none
       score := 1 } : Game).food.position = ((7 : Int) % 30, (7 : Int) / 30) :=
  eating_effects_on_terminal_tick
    { size := ((30 : Int), (20 : Int))
      snake :=
        { body := [((5 : Int), (5 : Int)), (4, 5), (4, 4), (5, 4)]
          direction := Direction.up }
      food := { position := ((5 : Int), (4 : Int)) }
      pending_direction := none
      score := 0 } 7
    { size := ((30 : Int), (20 : Int))
      snake :=
        { body := [((5 : Int), (4 : Int)), (5, 5), (4, 5), (4, 4), (5, 4)]
          direction := Direction.up }
      food := { position := ((7 : Int), (0 : Int)) }
      pending_direction := none
      score := 1 } false (by decide) (by decide)
